import Mathlib

/-!
Verification of the poker-control ledger and settlement engine.

The data model follows `src/types.ts`; the operations and derived
computations follow the application component (`src/unnamed/part_000`).
Money values are embedded exactly as rational numbers.
-/

namespace PokerControl

/-- Payment status of a buy-in or a rebuy (`'PAID' | 'PENDING'` in `src/types.ts`). -/
inductive PaymentStatus where
  | PAID : PaymentStatus
  | PENDING : PaymentStatus
deriving DecidableEq, Repr

/-- A rebuy record (`Rebuy` in `src/types.ts`). -/
structure Rebuy where
  id : String
  amount : ℚ
  status : PaymentStatus
  timestamp : ℤ
deriving DecidableEq, Repr

/-- A player record (`Player` in `src/types.ts`); `cashoutAmount = none` means
the player is still active in the game. -/
structure Player where
  id : String
  name : String
  buyInStatus : PaymentStatus
  rebuys : List Rebuy
  cashoutAmount : Option ℚ
deriving DecidableEq, Repr

/-- Game configuration (`GameConfig` in `src/types.ts`). -/
structure GameConfig where
  buyInAmount : ℚ
deriving DecidableEq, Repr

/-- The whole application state (`GameState` in `src/types.ts`). -/
structure GameState where
  isStarted : Bool
  config : GameConfig
  players : List Player
  finished : Bool
deriving DecidableEq, Repr

/-- `HOUSE_FEE_FIXED = 10` (`src/types.ts`, line 29). -/
def HOUSE_FEE_FIXED : ℚ := 10

/-- `INITIAL_STATE` (part_000, lines 9-14). -/
def INITIAL_STATE : GameState :=
  { isStarted := false, finished := false, config := { buyInAmount := 50 }, players := [] }

/-- The JS `String.prototype.trim`: drop leading and trailing whitespace.
Written by structural recursion over the character list so that the kernel can
evaluate it on concrete strings (`String.trim` of the standard library has the
same behaviour but is defined by well-founded recursion). -/
def trimString (s : String) : String :=
  ⟨((s.data.dropWhile Char.isWhitespace).reverse.dropWhile Char.isWhitespace).reverse⟩

/-- `validPlayers` (part_000, line 82): players whose name is neither empty nor
whitespace-only; the others are ghosts, excluded from every derived computation. -/
def validPlayers (s : GameState) : List Player :=
  s.players.filter (fun p => p.name != "" && trimString p.name != "")

/-- The record of running totals returned by `calculateTotals` (part_000, line 114). -/
structure Totals where
  totalBuyIns : ℚ
  totalRebuys : ℚ
  totalFees : ℚ
  totalChips : ℚ
  totalPaid : ℚ
  totalPending : ℚ
deriving DecidableEq, Repr

/-- The all-zero initialisation of the accumulators (part_000, lines 85-90). -/
def Totals.zero : Totals :=
  { totalBuyIns := 0, totalRebuys := 0, totalFees := 0, totalChips := 0,
    totalPaid := 0, totalPending := 0 }

/-- The body of the inner `p.rebuys.forEach` loop of `calculateTotals`
(part_000, lines 106-111). -/
def rebuyStep (acc : Totals) (r : Rebuy) : Totals :=
  { acc with
    totalRebuys := acc.totalRebuys + r.amount
    totalChips := acc.totalChips + r.amount
    totalPaid := if r.status = PaymentStatus.PAID then acc.totalPaid + r.amount else acc.totalPaid
    totalPending := if r.status = PaymentStatus.PAID then acc.totalPending
      else acc.totalPending + r.amount }

/-- The body of the outer `validPlayers.forEach` loop of `calculateTotals`
(part_000, lines 93-112). -/
def playerStep (cfg : GameConfig) (acc : Totals) (p : Player) : Totals :=
  let buyInChips := cfg.buyInAmount - HOUSE_FEE_FIXED
  let acc1 : Totals :=
    { acc with
      totalBuyIns := acc.totalBuyIns + cfg.buyInAmount
      totalFees := acc.totalFees + HOUSE_FEE_FIXED
      totalChips := acc.totalChips + buyInChips
      totalPaid := if p.buyInStatus = PaymentStatus.PAID then acc.totalPaid + cfg.buyInAmount
        else acc.totalPaid
      totalPending := if p.buyInStatus = PaymentStatus.PAID then acc.totalPending
        else acc.totalPending + cfg.buyInAmount }
  p.rebuys.foldl rebuyStep acc1

/-- `calculateTotals` (part_000, lines 84-115). -/
def calculateTotals (s : GameState) : Totals :=
  (validPlayers s).foldl (playerStep s.config) Totals.zero

/-- Sum of a player's rebuy amounts (`p.rebuys.reduce((sum, r) => sum + r.amount, 0)`,
part_000, lines 123, 336, 343, 479). -/
def rebuysTotal (p : Player) : ℚ :=
  p.rebuys.foldl (fun sum r => sum + r.amount) 0

/-- Sum of a player's PAID rebuy amounts
(`p.rebuys.reduce((sum, r) => r.status === 'PAID' ? sum + r.amount : sum, 0)`,
part_000, lines 122, 340, 810). -/
def rebuysPaidTotal (p : Player) : ℚ :=
  p.rebuys.foldl (fun sum r => if r.status = PaymentStatus.PAID then sum + r.amount else sum) 0

/-- `investedChips` of one player (part_000, lines 335-336, 478-480, 805-806). -/
def investedChips (cfg : GameConfig) (p : Player) : ℚ :=
  (cfg.buyInAmount - HOUSE_FEE_FIXED) + rebuysTotal p

/-- `paidCash` of one player (part_000, lines 121-122, 339-340, 809-810). -/
def paidCash (cfg : GameConfig) (p : Player) : ℚ :=
  (if p.buyInStatus = PaymentStatus.PAID then cfg.buyInAmount else 0) + rebuysPaidTotal p

/-- `totalCostCash` of one player (part_000, lines 123, 343, 811). -/
def totalCostCash (cfg : GameConfig) (p : Player) : ℚ :=
  cfg.buyInAmount + rebuysTotal p

/-- `pendingCash` of one player (part_000, lines 124, 344, 812). -/
def pendingCash (cfg : GameConfig) (p : Player) : ℚ :=
  totalCostCash cfg p - paidCash cfg p

/-- `getPlayer` (part_000, line 79). -/
def getPlayer (s : GameState) (id : String) : Option Player :=
  s.players.find? (fun p => p.id == id)

/-- `handleStartGame` (part_000, lines 135-143), restricted to its `GameState` effect. -/
def handleStartGame (s : GameState) (amount : ℚ) : GameState :=
  { s with isStarted := true, finished := false, config := { buyInAmount := amount } }

/-- `addPlayer` (part_000, lines 145-155); the fresh id produced by
`crypto.randomUUID()` is passed in as a parameter. -/
def addPlayer (s : GameState) (newId : String) (newPlayerName : String) : GameState :=
  if trimString newPlayerName = "" then s
  else
    { s with players := s.players ++
        [{ id := newId, name := trimString newPlayerName, buyInStatus := PaymentStatus.PENDING,
           rebuys := [], cashoutAmount := none }] }

/-- `updatePlayerStatus` (part_000, lines 157-162). -/
def updatePlayerStatus (s : GameState) (id : String) (status : PaymentStatus) : GameState :=
  { s with players := s.players.map (fun p =>
      if p.id == id then { p with buyInStatus := status } else p) }

/-- The error `addRebuy` signals on a rejected amount (part_000, lines 165-168;
the source reports it with an `alert`). -/
inductive LedgerError where
  | InvalidAmount : LedgerError
deriving DecidableEq, Repr

/-- `addRebuy` (part_000, lines 164-179) with its rejection made explicit:
`amount < 1` fails with `InvalidAmount`, otherwise the new PENDING rebuy is
appended to the matching player's rebuy list. The fresh id and the timestamp
are passed in as parameters. -/
def addRebuyChecked (s : GameState) (playerId : String) (amount : ℚ) (newId : String)
    (ts : ℤ) : Except LedgerError GameState :=
  if amount < 1 then Except.error LedgerError.InvalidAmount
  else
    let newRebuy : Rebuy :=
      { id := newId, amount := amount, status := PaymentStatus.PENDING, timestamp := ts }
    Except.ok { s with players := s.players.map (fun p =>
        if p.id == playerId then { p with rebuys := p.rebuys ++ [newRebuy] } else p) }

/-- `addRebuy` at the state level: on `InvalidAmount` the source alerts the user
and returns without touching the state (part_000, lines 165-168). -/
def addRebuy (s : GameState) (playerId : String) (amount : ℚ) (newId : String)
    (ts : ℤ) : GameState :=
  match addRebuyChecked s playerId amount newId ts with
  | Except.error _ => s
  | Except.ok s2 => s2

/-- `removeRebuy` (part_000, lines 181-186). -/
def removeRebuy (s : GameState) (playerId : String) (rebuyId : String) : GameState :=
  { s with players := s.players.map (fun p =>
      if p.id == playerId then { p with rebuys := p.rebuys.filter (fun r => r.id != rebuyId) }
      else p) }

/-- The inner map of `toggleRebuyStatus` (part_000, line 193): flip the status
of the rebuy with the given id. -/
def toggleRebuyFn (rebuyId : String) (r : Rebuy) : Rebuy :=
  if r.id == rebuyId then
    { r with status := if r.status = PaymentStatus.PAID then PaymentStatus.PENDING
        else PaymentStatus.PAID }
  else r

/-- The outer map of `toggleRebuyStatus` (part_000, lines 191-195). -/
def togglePlayerFn (playerId rebuyId : String) (p : Player) : Player :=
  if p.id == playerId then { p with rebuys := p.rebuys.map (toggleRebuyFn rebuyId) }
  else p

/-- `toggleRebuyStatus` (part_000, lines 188-197). -/
def toggleRebuyStatus (s : GameState) (playerId : String) (rebuyId : String) : GameState :=
  { s with players := s.players.map (togglePlayerFn playerId rebuyId) }

/-- `removePlayer` (part_000, lines 199-207), restricted to its `GameState` effect. -/
def removePlayer (s : GameState) (playerId : String) : GameState :=
  { s with players := s.players.filter (fun p => p.id != playerId) }

/-- `submitCashout` (part_000, lines 234-239). -/
def submitCashout (s : GameState) (playerId : String) (amount : ℚ) : GameState :=
  { s with players := s.players.map (fun p =>
      if p.id == playerId then { p with cashoutAmount := some amount } else p) }

/-- `finishGame` (part_000, lines 241-244), restricted to its `GameState` effect. -/
def finishGame (s : GameState) : GameState :=
  { s with finished := true }

/-- `confirmResetGame` (part_000, lines 209-232), restricted to its `GameState`
effect: the state is replaced by the empty initial value. -/
def confirmResetGame (_s : GameState) : GameState :=
  INITIAL_STATE

/-- The command surface of the lifecycle controller (spec section 6). -/
inductive Command where
  | StartGame (amount : ℚ) : Command
  | AddPlayer (newId : String) (name : String) : Command
  | RemovePlayer (id : String) : Command
  | SetBuyInStatus (id : String) (status : PaymentStatus) : Command
  | AddRebuy (playerId : String) (amount : ℚ) (newId : String) (ts : ℤ) : Command
  | RemoveRebuy (playerId : String) (rebuyId : String) : Command
  | ToggleRebuyStatus (playerId : String) (rebuyId : String) : Command
  | SubmitCashout (playerId : String) (amount : ℚ) : Command
  | FinishGame : Command
  | ResetGame : Command
deriving DecidableEq, Repr

/-- Dispatch of each command to its handler in part_000. -/
def applyCommand : Command → GameState → GameState
  | Command.StartGame amount, s => handleStartGame s amount
  | Command.AddPlayer newId name, s => addPlayer s newId name
  | Command.RemovePlayer id, s => removePlayer s id
  | Command.SetBuyInStatus id status, s => updatePlayerStatus s id status
  | Command.AddRebuy pid amount newId ts, s => addRebuy s pid amount newId ts
  | Command.RemoveRebuy pid rid, s => removeRebuy s pid rid
  | Command.ToggleRebuyStatus pid rid, s => toggleRebuyStatus s pid rid
  | Command.SubmitCashout pid amount, s => submitCashout s pid amount
  | Command.FinishGame, s => finishGame s
  | Command.ResetGame, s => confirmResetGame s

/-- The spec invariant `finished ⇒ isStarted` (spec section 3). -/
def FinishedImpliesStarted (s : GameState) : Prop :=
  s.finished = true → s.isStarted = true

/-- `totalCashoutDeclared` (part_000, line 471): sum of declared cashouts over
valid players, an absent cashout counting as `0`. -/
def totalCashoutDeclared (s : GameState) : ℚ :=
  (validPlayers s).foldl (fun sum p => sum + p.cashoutAmount.getD 0) 0

/-- `chipsDifference` (part_000, line 472). -/
def chipsDifference (s : GameState) : ℚ :=
  (calculateTotals s).totalChips - totalCashoutDeclared s

/-- `isBalanced` (part_000, line 473): the difference is within the floating
point tolerance `0.1`. -/
def isBalanced (s : GameState) : Bool :=
  decide (|chipsDifference s| < (0.1 : ℚ))

/-- The three states reported by the chip verification card. -/
inductive AuditReport where
  | Balanced : AuditReport
  | ChipsMissing : AuditReport
  | ChipsExcess : AuditReport
deriving DecidableEq, Repr

/-- The classification rendered by the chip verification card (part_000,
lines 539-562): balanced, else a positive difference reads `Faltam ...`
(chips missing) and otherwise `Fichas a mais ...` (chips excess). -/
def chipAudit (s : GameState) : AuditReport :=
  if isBalanced s then AuditReport.Balanced
  else if chipsDifference s > 0 then AuditReport.ChipsMissing
  else AuditReport.ChipsExcess

/-- One row of the ranking (part_000, line 491): the player together with the
derived settlement quantities spread onto the entry. -/
structure RankEntry where
  player : Player
  investedChips : ℚ
  out : ℚ
  performanceRatio : ℚ
  rankingFee : ℚ
  net : ℚ
deriving DecidableEq, Repr

/-- The map step of `rankedPlayers` (part_000, lines 476-491). -/
def mkRankEntry (cfg : GameConfig) (p : Player) : RankEntry :=
  let buyInChips := cfg.buyInAmount - HOUSE_FEE_FIXED
  let rebuysSum := p.rebuys.foldl (fun sum r => sum + r.amount) 0
  let invested := buyInChips + rebuysSum
  let out := p.cashoutAmount.getD 0
  let ratio := if invested > 0 then out / invested else 0
  let fee := out * (0.10 : ℚ)
  { player := p, investedChips := invested, out := out, performanceRatio := ratio,
    rankingFee := fee, net := out - fee }

/-- The comparator of `rankedPlayers` (part_000, lines 492-497) as a total
preorder: `rankLE a b` holds exactly when the source comparator returns a
value `≤ 0` on `(a, b)`, that is when `a` may be placed before `b`. -/
def rankLE (a b : RankEntry) : Bool :=
  if a.performanceRatio = b.performanceRatio then decide (b.out ≤ a.out)
  else decide (b.performanceRatio ≤ a.performanceRatio)

/-- The list the ranking sorts (part_000, lines 476-491). -/
def rankingEntries (s : GameState) : List RankEntry :=
  (validPlayers s).map (mkRankEntry s.config)

/-- `rankedPlayers` (part_000, lines 476-497). `Array.prototype.sort` is
required to be stable and to sort by the comparator, which is exactly the
stable merge sort under `rankLE`. -/
def rankedPlayers (s : GameState) : List RankEntry :=
  (rankingEntries s).mergeSort rankLE

/-- Reassign every payment status in a state, leaving names, ids, amounts,
cashouts and the list structure untouched. -/
def setStatuses (s : GameState) (f : Player → PaymentStatus) (g : Rebuy → PaymentStatus) :
    GameState :=
  { s with players := s.players.map (fun p =>
      { p with
        buyInStatus := f p
        rebuys := p.rebuys.map (fun r => { r with status := g r }) }) }

/-! ### Concrete data used by the closed witness statements -/

/-- A player with a pending buy-in, no rebuys and a declared cashout of 40. -/
def alice : Player :=
  { id := "a", name := "Alice", buyInStatus := PaymentStatus.PENDING, rebuys := [],
    cashoutAmount := some 40 }

/-- A second player tied with `alice` on every ranking key. -/
def bob : Player :=
  { id := "b", name := "Bob", buyInStatus := PaymentStatus.PENDING, rebuys := [],
    cashoutAmount := some 40 }

/-- A pending rebuy of 30. -/
def carolRebuy : Rebuy :=
  { id := "r1", amount := 30, status := PaymentStatus.PENDING, timestamp := 0 }

/-- A player with a paid buy-in, one pending rebuy and no cashout yet. -/
def carol : Player :=
  { id := "c", name := "Carol", buyInStatus := PaymentStatus.PAID, rebuys := [carolRebuy],
    cashoutAmount := none }

/-- A started game with buy-in 50 and the three players above. -/
def exampleState : GameState :=
  { isStarted := true, finished := false, config := { buyInAmount := 50 },
    players := [alice, bob, carol] }

/-! ### Helper lemmas about the fold-based totals -/

lemma foldl_add_eq_sum {α : Type} (f : α → ℚ) (l : List α) (acc : ℚ) :
    l.foldl (fun sum x => sum + f x) acc = acc + (l.map f).sum := by
  induction l generalizing acc with
  | nil => simp
  | cons x xs ih => simp [ih, add_assoc]

lemma rebuyStep_totalChips (acc : Totals) (r : Rebuy) :
    (rebuyStep acc r).totalChips = acc.totalChips + r.amount := rfl

lemma foldl_rebuyStep_totalChips (rs : List Rebuy) (acc : Totals) :
    (rs.foldl rebuyStep acc).totalChips = acc.totalChips + (rs.map Rebuy.amount).sum := by
  induction rs generalizing acc with
  | nil => simp
  | cons r rs ih => simp [ih, rebuyStep_totalChips, add_assoc]

lemma foldl_playerStep_totalChips (cfg : GameConfig) (ps : List Player) (acc : Totals) :
    (ps.foldl (playerStep cfg) acc).totalChips
      = acc.totalChips
        + (ps.map (fun p => (cfg.buyInAmount - HOUSE_FEE_FIXED)
            + (p.rebuys.map Rebuy.amount).sum)).sum := by
  induction ps generalizing acc with
  | nil => simp
  | cons p ps ih =>
    rw [List.foldl_cons, playerStep, ih, foldl_rebuyStep_totalChips]
    show acc.totalChips + (cfg.buyInAmount - HOUSE_FEE_FIXED) + _ + _ = _
    rw [List.map_cons, List.sum_cons]
    ring

/-! ### C1: the ledger total `totalChips` -/

/-- C1: for every `GameState`, `totalChips` equals the sum over all non-ghost
players of `config.buyInAmount - 10` plus the sum of those players' rebuy
amounts, and the value does not depend on any buy-in status or rebuy status. -/
theorem totalChips_formula (s : GameState) :
    (calculateTotals s).totalChips
      = ((validPlayers s).map (fun p => (s.config.buyInAmount - 10)
          + (p.rebuys.map Rebuy.amount).sum)).sum
    ∧ ∀ (f : Player → PaymentStatus) (g : Rebuy → PaymentStatus),
        (calculateTotals (setStatuses s f g)).totalChips = (calculateTotals s).totalChips := by
  have key : ∀ t : GameState, (calculateTotals t).totalChips
      = ((validPlayers t).map (fun p => (t.config.buyInAmount - 10)
          + (p.rebuys.map Rebuy.amount).sum)).sum := by
    intro t
    rw [calculateTotals, foldl_playerStep_totalChips]
    show 0 + _ = _
    rw [zero_add]
    rfl
  refine ⟨key s, fun f g => ?_⟩
  rw [key (setStatuses s f g), key s]
  have hvalid : validPlayers (setStatuses s f g)
      = (validPlayers s).map (fun p =>
          { p with
            buyInStatus := f p
            rebuys := p.rebuys.map (fun r => { r with status := g r }) }) := by
    unfold validPlayers setStatuses
    show (s.players.map _).filter _ = _
    rw [List.filter_map]
    rfl
  have hcfg : (setStatuses s f g).config = s.config := rfl
  rw [hcfg, hvalid, List.map_map]
  congr 1
  apply List.map_congr_left
  intro p _
  simp only [Function.comp]
  rw [List.map_map]
  rfl

/-! ### C3: `addRebuy` rejects amounts below 1 without mutating state -/

/-- C3: for every state, player id and amount strictly below 1, `addRebuy`
fails with `InvalidAmount` and leaves the state (in particular the target
player's rebuy list length) unchanged. -/
theorem addRebuy_invalid_amount (s : GameState) (pid newId : String) (a : ℚ) (ts : ℤ)
    (h : a < 1) :
    addRebuyChecked s pid a newId ts = Except.error LedgerError.InvalidAmount
    ∧ addRebuy s pid a newId ts = s
    ∧ (getPlayer (addRebuy s pid a newId ts) pid).map (fun p => p.rebuys.length)
        = (getPlayer s pid).map (fun p => p.rebuys.length) := by
  have hc : addRebuyChecked s pid a newId ts = Except.error LedgerError.InvalidAmount := by
    unfold addRebuyChecked
    rw [if_pos h]
  have hs : addRebuy s pid a newId ts = s := by
    unfold addRebuy
    rw [hc]
  exact ⟨hc, hs, by rw [hs]⟩

/-! ### C6: `paidCash + pendingCash = totalCostCash` -/

/-- C6: for every state and every non-ghost player, the per-player cash
quantities satisfy `paidCash + pendingCash = totalCostCash` exactly. -/
theorem paidCash_add_pendingCash (s : GameState) (p : Player) (_hp : p ∈ validPlayers s) :
    paidCash s.config p + pendingCash s.config p = totalCostCash s.config p := by
  unfold pendingCash
  ring

/-! ### C7: the performance ratio is guarded against division by zero -/

/-- C7: for every configuration and player, the settlement entry's ratio is
`out / investedChips` when `investedChips > 0` and `0` when
`investedChips ≤ 0`; the computation is total. -/
theorem performanceRatio_guarded (cfg : GameConfig) (p : Player) :
    (0 < (mkRankEntry cfg p).investedChips →
      (mkRankEntry cfg p).performanceRatio
        = (mkRankEntry cfg p).out / (mkRankEntry cfg p).investedChips)
    ∧ ((mkRankEntry cfg p).investedChips ≤ 0 → (mkRankEntry cfg p).performanceRatio = 0) := by
  unfold mkRankEntry
  constructor
  · intro h
    simp only at h ⊢
    rw [if_pos h]
  · intro h
    simp only at h ⊢
    rw [if_neg (not_lt.mpr h)]

/-! ### C2: the ranking order -/

lemma rankLE_total (a b : RankEntry) : (rankLE a b || rankLE b a) = true := by
  unfold rankLE
  rcases eq_or_ne a.performanceRatio b.performanceRatio with h | h
  · rw [if_pos h, if_pos h.symm]
    simp only [Bool.or_eq_true, decide_eq_true_eq]
    exact le_total b.out a.out
  · rw [if_neg h, if_neg (Ne.symm h)]
    simp only [Bool.or_eq_true, decide_eq_true_eq]
    exact le_total b.performanceRatio a.performanceRatio

lemma rankLE_trans (a b c : RankEntry) : rankLE a b → rankLE b c → rankLE a c := by
  intro h1 h2
  unfold rankLE at h1 h2 ⊢
  by_cases hab : a.performanceRatio = b.performanceRatio
  · rw [if_pos hab] at h1
    simp only [decide_eq_true_eq] at h1
    by_cases hbc : b.performanceRatio = c.performanceRatio
    · rw [if_pos hbc] at h2
      rw [if_pos (hab.trans hbc)]
      simp only [decide_eq_true_eq] at h2 ⊢
      exact le_trans h2 h1
    · rw [if_neg hbc] at h2
      have hac : a.performanceRatio ≠ c.performanceRatio := fun e => hbc (hab.symm.trans e)
      rw [if_neg hac]
      simp only [decide_eq_true_eq] at h2 ⊢
      rw [hab]
      exact h2
  · rw [if_neg hab] at h1
    simp only [decide_eq_true_eq] at h1
    by_cases hbc : b.performanceRatio = c.performanceRatio
    · have hac : a.performanceRatio ≠ c.performanceRatio := fun e => hab (e.trans hbc.symm)
      rw [if_neg hac]
      simp only [decide_eq_true_eq]
      rw [← hbc]
      exact h1
    · rw [if_neg hbc] at h2
      simp only [decide_eq_true_eq] at h2
      by_cases hac : a.performanceRatio = c.performanceRatio
      · have h2a : a.performanceRatio ≤ b.performanceRatio := by rw [hac]; exact h2
        exact absurd (le_antisymm h1 h2a) (Ne.symm hab)
      · rw [if_neg hac]
        simp only [decide_eq_true_eq]
        exact le_trans h2 h1

lemma rankLE_iff (a b : RankEntry) :
    rankLE a b = true ↔
      (b.performanceRatio < a.performanceRatio
        ∨ (a.performanceRatio = b.performanceRatio ∧ b.out ≤ a.out)) := by
  unfold rankLE
  by_cases h : a.performanceRatio = b.performanceRatio
  · simp [h]
  · rw [if_neg h]
    simp only [decide_eq_true_eq, h, false_and, or_false]
    constructor
    · exact fun hle => lt_of_le_of_ne hle (fun e => h e.symm)
    · exact le_of_lt

/-- C2: for every state, the ranking is pairwise in descending order of
`performanceRatio` with ties broken by descending `out`; it is a permutation of
the settlement entries of the non-ghost players; and any two entries tied on
both keys keep their original relative order (stability). -/
theorem rankedPlayers_sorted_stable (s : GameState) :
    ((rankedPlayers s).Pairwise (fun a b =>
        b.performanceRatio < a.performanceRatio
          ∨ (a.performanceRatio = b.performanceRatio ∧ b.out ≤ a.out)))
    ∧ (rankedPlayers s).Perm (rankingEntries s)
    ∧ ∀ a b : RankEntry, [a, b].Sublist (rankingEntries s) →
        a.performanceRatio = b.performanceRatio → a.out = b.out →
        [a, b].Sublist (rankedPlayers s) := by
  refine ⟨?_, ?_, ?_⟩
  · have h := List.sorted_mergeSort rankLE_trans rankLE_total (rankingEntries s)
    exact h.imp (fun hab => (rankLE_iff _ _).mp hab)
  · exact List.mergeSort_perm (rankingEntries s) rankLE
  · intro a b hsub heq hout
    apply List.pair_sublist_mergeSort rankLE_trans rankLE_total _ hsub
    unfold rankLE
    rw [if_pos heq, hout]
    simp

/-! ### C4: the chip audit -/

/-- C4: for every state, `chipsDifference = totalChips - totalCashoutDeclared`
(absent cashouts counting as 0, over non-ghost players), `isBalanced` holds
exactly when the absolute difference is below `0.1`, and an unbalanced positive
difference is classified as chips missing, a negative one as chips excess. -/
theorem chipAudit_spec (s : GameState) :
    chipsDifference s
      = (calculateTotals s).totalChips
        - ((validPlayers s).map (fun p => p.cashoutAmount.getD 0)).sum
    ∧ (isBalanced s = true ↔ |chipsDifference s| < 1/10)
    ∧ (isBalanced s = false → 0 < chipsDifference s → chipAudit s = AuditReport.ChipsMissing)
    ∧ (isBalanced s = false → chipsDifference s < 0 → chipAudit s = AuditReport.ChipsExcess) := by
  refine ⟨?_, ?_, ?_, ?_⟩
  · unfold chipsDifference totalCashoutDeclared
    rw [foldl_add_eq_sum, zero_add]
  · unfold isBalanced
    rw [decide_eq_true_eq]
    norm_num
  · intro hb hpos
    unfold chipAudit
    rw [hb]
    simp [hpos]
  · intro hb hneg
    unfold chipAudit
    rw [hb]
    simp [not_lt.mpr (le_of_lt hneg)]

/-! ### C5: the invariant `finished ⇒ isStarted` -/

/-- C5 counterexample: the initial empty state satisfies `finished ⇒ isStarted`
vacuously, yet applying `FinishGame` to it yields a state with `finished = true`
and `isStarted = false`; so the implication is not preserved by every command on
every state satisfying it. -/
theorem finishGame_on_unstarted_state :
    FinishedImpliesStarted INITIAL_STATE
    ∧ (applyCommand Command.FinishGame INITIAL_STATE).finished = true
    ∧ (applyCommand Command.FinishGame INITIAL_STATE).isStarted = false := by
  refine ⟨fun h => absurd h (by decide), rfl, rfl⟩

/-- C5 amended: the implication `finished ⇒ isStarted` holds in the initial
state and is preserved by every command, except that `FinishGame` preserves it
only when applied to a state with `isStarted = true` (which is the only way the
UI reaches it). -/
theorem finished_implies_started_invariant :
    FinishedImpliesStarted INITIAL_STATE
    ∧ ∀ (c : Command) (s : GameState),
        FinishedImpliesStarted s →
        (c = Command.FinishGame → s.isStarted = true) →
        FinishedImpliesStarted (applyCommand c s) := by
  constructor
  · exact fun h => absurd h (by decide)
  · intro c s hs hfin
    cases c with
    | StartGame amount => exact fun _ => rfl
    | AddPlayer newId name =>
      show FinishedImpliesStarted (addPlayer s newId name)
      unfold addPlayer
      split
      · exact hs
      · exact hs
    | RemovePlayer id => exact hs
    | SetBuyInStatus id status => exact hs
    | AddRebuy pid amount newId ts =>
      show FinishedImpliesStarted (addRebuy s pid amount newId ts)
      unfold addRebuy addRebuyChecked
      by_cases h : amount < 1
      · rw [if_pos h]
        exact hs
      · rw [if_neg h]
        exact hs
    | RemoveRebuy pid rid => exact hs
    | ToggleRebuyStatus pid rid => exact hs
    | SubmitCashout pid amount => exact hs
    | FinishGame => exact fun _ => hfin rfl
    | ResetGame => exact fun h => absurd h Bool.false_ne_true

/-! ### C8: mutations aimed at an absent id are no-ops -/

lemma map_eq_self_of_eq_id {α : Type} (l : List α) (f : α → α) (h : ∀ x ∈ l, f x = x) :
    l.map f = l := by
  induction l with
  | nil => rfl
  | cons x xs ih =>
    rw [List.map_cons, h x (List.mem_cons_self x xs),
      ih (fun y hy => h y (List.mem_cons_of_mem x hy))]

lemma beq_eq_false_of_ne {a b : String} (h : a ≠ b) : (a == b) = false := by
  simp [h]

/-- C8: `SetBuyInStatus`, `RemoveRebuy`, `RemovePlayer`, `ToggleRebuyStatus` and
`SubmitCashout` applied with a player id absent from the state leave the state
unchanged, and so do `RemoveRebuy` and `ToggleRebuyStatus` applied with a rebuy
id owned by no player; no error is raised (the operations are total). -/
theorem missing_id_noops (s : GameState) (pid rid : String) (status : PaymentStatus) (a : ℚ) :
    ((∀ p ∈ s.players, p.id ≠ pid) →
      updatePlayerStatus s pid status = s
      ∧ removePlayer s pid = s
      ∧ submitCashout s pid a = s
      ∧ removeRebuy s pid rid = s
      ∧ toggleRebuyStatus s pid rid = s)
    ∧ ((∀ p ∈ s.players, ∀ r ∈ p.rebuys, r.id ≠ rid) →
      removeRebuy s pid rid = s
      ∧ toggleRebuyStatus s pid rid = s) := by
  constructor
  · intro h
    have hne : ∀ p ∈ s.players, (p.id == pid) = false := fun p hp => beq_eq_false_of_ne (h p hp)
    refine ⟨?_, ?_, ?_, ?_, ?_⟩
    · unfold updatePlayerStatus
      rw [map_eq_self_of_eq_id _ _ (fun p hp => by rw [hne p hp]; rfl)]
    · unfold removePlayer
      rw [List.filter_eq_self.mpr (fun p hp => by rw [bne, hne p hp]; rfl)]
    · unfold submitCashout
      rw [map_eq_self_of_eq_id _ _ (fun p hp => by rw [hne p hp]; rfl)]
    · unfold removeRebuy
      rw [map_eq_self_of_eq_id _ _ (fun p hp => by rw [hne p hp]; rfl)]
    · unfold toggleRebuyStatus
      rw [map_eq_self_of_eq_id _ _ (fun p hp => by unfold togglePlayerFn; rw [hne p hp]; rfl)]
  · intro h
    have key : ∀ p ∈ s.players, ∀ r ∈ p.rebuys, (r.id == rid) = false :=
      fun p hp r hr => beq_eq_false_of_ne (h p hp r hr)
    constructor
    · unfold removeRebuy
      rw [map_eq_self_of_eq_id _ _ ?_]
      intro p hp
      by_cases hpid : (p.id == pid) = true
      · rw [if_pos hpid, List.filter_eq_self.mpr (fun r hr => by rw [bne, key p hp r hr]; rfl)]
      · rw [if_neg hpid]
    · unfold toggleRebuyStatus
      rw [map_eq_self_of_eq_id _ _ ?_]
      intro p hp
      unfold togglePlayerFn
      by_cases hpid : (p.id == pid) = true
      · rw [if_pos hpid,
          map_eq_self_of_eq_id _ _ (fun r hr => by unfold toggleRebuyFn; rw [key p hp r hr]; rfl)]
      · rw [if_neg hpid]

/-! ### C9: toggling a rebuy status twice restores the state -/

lemma toggleRebuyFn_involutive (rid : String) (r : Rebuy) :
    toggleRebuyFn rid (toggleRebuyFn rid r) = r := by
  unfold toggleRebuyFn
  by_cases hr : (r.id == rid) = true
  · cases r with
    | mk id amount status ts => cases status <;> simp [hr]
  · rw [if_neg hr, if_neg hr]

lemma togglePlayerFn_involutive (pid rid : String) (q : Player) :
    togglePlayerFn pid rid (togglePlayerFn pid rid q) = q := by
  by_cases hq : (q.id == pid) = true
  · have h1 : togglePlayerFn pid rid q
        = { q with rebuys := q.rebuys.map (toggleRebuyFn rid) } := by
      unfold togglePlayerFn
      rw [if_pos hq]
    rw [h1]
    unfold togglePlayerFn
    rw [if_pos hq]
    show ({ q with rebuys := (q.rebuys.map (toggleRebuyFn rid)).map (toggleRebuyFn rid) }
        : Player) = q
    rw [List.map_map,
      map_eq_self_of_eq_id q.rebuys (toggleRebuyFn rid ∘ toggleRebuyFn rid)
        (fun r _ => toggleRebuyFn_involutive rid r)]
  · unfold togglePlayerFn
    rw [if_neg hq, if_neg hq]

/-- C9: for every state containing a player with id `pid` owning a rebuy with
id `rid`, applying `ToggleRebuyStatus(pid, rid)` twice yields the original
state back — in particular that rebuy's status equals its original status. -/
theorem toggleRebuyStatus_involutive (s : GameState) (pid rid : String) (p : Player)
    (_hp : p ∈ s.players) (_hpid : p.id = pid) (r : Rebuy) (_hr : r ∈ p.rebuys)
    (_hrid : r.id = rid) :
    toggleRebuyStatus (toggleRebuyStatus s pid rid) pid rid = s := by
  unfold toggleRebuyStatus
  show ({ s with players :=
      (s.players.map (togglePlayerFn pid rid)).map (togglePlayerFn pid rid) } : GameState) = s
  rw [List.map_map,
    map_eq_self_of_eq_id s.players (togglePlayerFn pid rid ∘ togglePlayerFn pid rid)
      (fun q _ => togglePlayerFn_involutive pid rid q)]

/-! ### C10: new players and new rebuys start PENDING -/

lemma find?_map_update (l : List Player) (pid : String) (f : Player → Player)
    (hid : ∀ p, (f p).id = p.id) (p : Player)
    (hp : l.find? (fun q => q.id == pid) = some p) :
    (l.map (fun q => if q.id == pid then f q else q)).find? (fun q => q.id == pid)
      = some (f p) := by
  induction l with
  | nil => simp at hp
  | cons q l ih =>
    rw [List.find?_cons] at hp
    rw [List.map_cons, List.find?_cons]
    cases hq : (q.id == pid) with
    | true =>
      simp only [hq] at hp
      injection hp with hqp
      subst hqp
      simp [hid q, hq]
    | false =>
      simp only [hq] at hp
      simp only [if_neg (by simp : ¬(false = true)), hq]
      exact ih hp

/-- C10: `AddPlayer` with a non-blank name appends a player with `PENDING`
buy-in status, no rebuys, no cashout and the trimmed name; and `AddRebuy` with
an amount `≥ 1` for an existing player appends exactly one `PENDING` rebuy with
that amount to the end of that player's rebuy list. -/
theorem new_entities_start_pending (s : GameState) (newId name pid rid : String) (a : ℚ)
    (ts : ℤ) (p : Player) :
    (trimString name ≠ "" →
      (addPlayer s newId name).players
        = s.players
          ++ [{ id := newId, name := trimString name, buyInStatus := PaymentStatus.PENDING,
                rebuys := [], cashoutAmount := none }])
    ∧ (1 ≤ a → getPlayer s pid = some p →
        getPlayer (addRebuy s pid a rid ts) pid
          = some { p with rebuys := p.rebuys
              ++ [{ id := rid, amount := a, status := PaymentStatus.PENDING,
                    timestamp := ts }] }) := by
  constructor
  · intro h
    unfold addPlayer
    rw [if_neg h]
  · intro ha hp
    unfold addRebuy addRebuyChecked
    rw [if_neg (not_lt.mpr ha)]
    unfold getPlayer at hp ⊢
    exact find?_map_update s.players pid
      (fun q => { q with rebuys := q.rebuys
          ++ [{ id := rid, amount := a, status := PaymentStatus.PENDING, timestamp := ts }] })
      (fun q => rfl) p hp

/-! ### Closed witness statements -/

/-- Witness for C3: a rebuy of 0 for an existing player is rejected and the
state is unchanged. -/
theorem addRebuy_invalid_amount_witness :
    addRebuy exampleState "a" 0 "r9" 5 = exampleState :=
  (addRebuy_invalid_amount exampleState "a" "r9" 0 5 (by norm_num)).2.1

/-- Witness for C6, evaluated at the non-ghost player `alice`. -/
theorem paidCash_add_pendingCash_witness :
    paidCash exampleState.config alice + pendingCash exampleState.config alice
      = totalCostCash exampleState.config alice :=
  paidCash_add_pendingCash exampleState alice (by decide)

/-- Witness for C9: toggling Carol's rebuy `r1` twice restores the state. -/
theorem toggleRebuyStatus_involutive_witness :
    toggleRebuyStatus (toggleRebuyStatus exampleState "c" "r1") "c" "r1" = exampleState :=
  toggleRebuyStatus_involutive exampleState "c" "r1" carol (by decide) rfl
    carolRebuy (by decide) rfl

/-- Witness for C2: `alice` and `bob` are tied on ratio and cashout, and keep
their original relative order in the ranking of `exampleState`. -/
theorem rankedPlayers_sorted_stable_witness :
    [mkRankEntry { buyInAmount := 50 } alice, mkRankEntry { buyInAmount := 50 } bob].Sublist
      (rankedPlayers exampleState) := by
  have hE : rankingEntries exampleState
      = [mkRankEntry { buyInAmount := 50 } alice, mkRankEntry { buyInAmount := 50 } bob,
         mkRankEntry { buyInAmount := 50 } carol] := by
    simp +decide [rankingEntries, validPlayers, exampleState, alice, bob, carol, trimString]
  refine (rankedPlayers_sorted_stable exampleState).2.2 _ _ ?_
    (by norm_num [mkRankEntry, alice, bob]) (by norm_num [mkRankEntry, alice, bob])
  rw [hE]
  exact List.Sublist.cons₂ _ (List.Sublist.cons₂ _ (List.nil_sublist _))

/-- Witness for C4: `exampleState` has 150 chips in play against 80 declared,
so the audit is unbalanced and reports chips missing. -/
theorem chipAudit_spec_witness :
    chipAudit exampleState = AuditReport.ChipsMissing :=
  (chipAudit_spec exampleState).2.2.1
    (by norm_num +decide [isBalanced, chipsDifference, totalCashoutDeclared, calculateTotals,
      validPlayers, exampleState, alice, bob, carol, carolRebuy, playerStep, rebuyStep,
      Totals.zero, HOUSE_FEE_FIXED, trimString])
    (by norm_num +decide [chipsDifference, totalCashoutDeclared, calculateTotals,
      validPlayers, exampleState, alice, bob, carol, carolRebuy, playerStep, rebuyStep,
      Totals.zero, HOUSE_FEE_FIXED, trimString])

/-- Witness for C5 (amended): `FinishGame` issued from a started state keeps
the invariant. -/
theorem finished_implies_started_invariant_witness :
    (applyCommand Command.FinishGame exampleState).isStarted = true :=
  finished_implies_started_invariant.2 Command.FinishGame exampleState
    (fun h => absurd h Bool.false_ne_true) (fun _ => rfl) rfl

/-- Witness for C7: Alice's entry divides 40 by 40 when the buy-in is 50, and
is zero when the buy-in is 10 (invested chips 0). -/
theorem performanceRatio_guarded_witness :
    (mkRankEntry { buyInAmount := 50 } alice).performanceRatio
      = (mkRankEntry { buyInAmount := 50 } alice).out
        / (mkRankEntry { buyInAmount := 50 } alice).investedChips
    ∧ (mkRankEntry { buyInAmount := 10 } alice).performanceRatio = 0 :=
  ⟨(performanceRatio_guarded { buyInAmount := 50 } alice).1
      (by norm_num [mkRankEntry, HOUSE_FEE_FIXED, alice]),
   (performanceRatio_guarded { buyInAmount := 10 } alice).2
      (by norm_num [mkRankEntry, HOUSE_FEE_FIXED, alice])⟩

/-- Witness for C8: the id `"zz"` occurs nowhere in `exampleState`, and every
mutation aimed at it is a no-op. -/
theorem missing_id_noops_witness :
    (updatePlayerStatus exampleState "zz" PaymentStatus.PAID = exampleState
      ∧ removePlayer exampleState "zz" = exampleState
      ∧ submitCashout exampleState "zz" 5 = exampleState
      ∧ removeRebuy exampleState "zz" "zz" = exampleState
      ∧ toggleRebuyStatus exampleState "zz" "zz" = exampleState)
    ∧ (removeRebuy exampleState "a" "zz" = exampleState
      ∧ toggleRebuyStatus exampleState "a" "zz" = exampleState) :=
  ⟨(missing_id_noops exampleState "zz" "zz" PaymentStatus.PAID 5).1 (by decide),
   (missing_id_noops exampleState "a" "zz" PaymentStatus.PAID 5).2 (by decide)⟩

/-- Witness for C10: adding `"  Zoe "` appends a trimmed PENDING player, and a
rebuy of 25 for `alice` appends one PENDING rebuy of 25. -/
theorem new_entities_start_pending_witness :
    (addPlayer exampleState "z" "  Zoe ").players
      = exampleState.players
        ++ [{ id := "z", name := "Zoe", buyInStatus := PaymentStatus.PENDING, rebuys := [],
              cashoutAmount := none }]
    ∧ getPlayer (addRebuy exampleState "a" 25 "r2" 7) "a"
        = some { alice with
            rebuys := [{ id := "r2", amount := 25, status := PaymentStatus.PENDING,
                         timestamp := 7 }] } := by
  constructor
  · have h := (new_entities_start_pending exampleState "z" "  Zoe " "a" "r2" 25 7 alice).1
      (by decide)
    rw [h]
    decide
  · have h := (new_entities_start_pending exampleState "z" "  Zoe " "a" "r2" 25 7 alice).2
      (by norm_num) (by decide)
    rw [h]
    decide

/-! ### Concrete scenarios from the specification, as additional evidence -/

/-- Spec scenario A, per-player values, read off the example state (buy-in 50):
Alice, pending with no rebuys, has 40 invested chips and 50 pending cash; the
three players together put 150 chips in play (40 + 40 + 40 + 30). -/
theorem scenarioA :
    (calculateTotals exampleState).totalChips = 150
    ∧ investedChips exampleState.config alice = 40
    ∧ pendingCash exampleState.config alice = 50 := by
  refine ⟨?_, ?_, ?_⟩
  · norm_num +decide [calculateTotals, validPlayers, exampleState, alice, bob, carol, carolRebuy,
      playerStep, rebuyStep, Totals.zero, HOUSE_FEE_FIXED, trimString]
  · norm_num [investedChips, rebuysTotal, exampleState, alice, HOUSE_FEE_FIXED]
  · norm_num +decide [pendingCash, totalCostCash, paidCash, rebuysTotal, rebuysPaidTotal,
      exampleState, alice]

/-- Spec scenario C: with cashouts 80 and 20 on 40 invested chips each, the
ranking is the 80-cashout player first, with fees 8 and 2 and nets 72 and 18. -/
theorem scenarioC :
    (rankedPlayers
        { isStarted := true, finished := false, config := { buyInAmount := 50 },
          players :=
            [{ id := "2", name := "Y", buyInStatus := PaymentStatus.PAID, rebuys := [],
               cashoutAmount := some 20 },
             { id := "1", name := "X", buyInStatus := PaymentStatus.PAID, rebuys := [],
               cashoutAmount := some 80 }] }).map
      (fun e => (e.player.id, e.performanceRatio, e.rankingFee, e.net))
      = [("1", 2, 8, 72), ("2", 1/2, 2, 18)] := by
  norm_num +decide [rankedPlayers, rankingEntries, validPlayers, mkRankEntry, trimString,
    List.mergeSort, List.merge, rankLE, HOUSE_FEE_FIXED]

end PokerControl
